import Mathlib

/-!
Shallow embedding of the Etherwall IPC client core (`src/etheripc.cpp`).

The client is a single-connection JSON-RPC request queue: public API calls
build `RequestIPC` envelopes and pass them to `queueRequest`; the socket's
ready-read events are dispatched by the active request's type to a
per-type handler which parses the reply via `readReply` and then advances
the queue (`done`) or resets it (`bail`).

The embedding is a pure state machine.  Qt signal emissions, socket writes,
transport opens and the `queueRequest` call sequence are recorded in ghost
trace fields (`events`, `writes`, `opens`, `enqueued`) of the state; the
process-wide `RequestIPC::sCallID` counter becomes the explicit `nextCallId`
field.  The socket is modelled by its connection state plus two flags
(`socketWritable`, `socketWriteOk`) deciding the two failure branches of
`writeRequest`; inbound socket data is passed to the read handlers as an
explicit `ReadResult` (empty read / JSON parse error / parsed document).
-/

namespace Etherwall

/-- JSON values as the client sees them through QJsonValue: null, bool,
integral number, string, array, object (field list). -/
inductive Json where
  | null : Json
  | bool (b : Bool) : Json
  | num (n : Int) : Json
  | str (s : String) : Json
  | arr (elems : List Json) : Json
  | obj (fields : List (String × Json)) : Json

/-- QJsonValue::isNull() on a possibly-undefined value. -/
def optIsNull : Option Json → Bool
  | some .null => true
  | _ => false

/-- QJsonValue::toString(defaultValue): the string if the value is a string,
the given default otherwise. -/
def Json.toStringDef (d : String) : Json → String
  | .str s => s
  | _ => d

/-- QJsonValue::toString(): null QString (modelled "") if not a string. -/
def Json.toStringQ (j : Json) : String := j.toStringDef ""

/-- QJsonValue::toBool(defaultValue). -/
def Json.toBoolDef (d : Bool) : Json → Bool
  | .bool b => b
  | _ => d

/-- QJsonValue::toArray(): empty array if not an array. -/
def Json.toArr : Json → List Json
  | .arr xs => xs
  | _ => []

/-- QJsonValue::toObject(): empty object if not an object. -/
def Json.toObjFields : Json → List (String × Json)
  | .obj fs => fs
  | _ => []

/-- QJsonObject lookup: `obj[k]` is undefined (`none`) when the key is absent. -/
def lookupField (k : String) (fs : List (String × Json)) : Option Json :=
  (fs.find? (fun p => p.1 == k)).map (fun p => p.2)

/-- QJsonValue::toInt(defaultValue) applied to a possibly-undefined value. -/
def optToIntDef (d : Int) : Option Json → Int
  | some (.num n) => n
  | _ => d

/-- QJsonValue::toString() applied to a possibly-undefined value. -/
def optToStringQ : Option Json → String
  | some (.str s) => s
  | _ => ""

/-- QJsonValue::toObject() applied to a possibly-undefined value. -/
def optToObjFields : Option Json → List (String × Json)
  | some j => j.toObjFields
  | none => []

/-! ### BigInt codec

`bigint.h`/`bigint.cpp` are not part of `src/`; the functions below are
modelled from the spec (§4.1 BigInteger Codec). -/

/-- Digit list of `n` in the given base, most significant first; the first
argument is recursion fuel (any fuel exceeding the digit count is enough). -/
def digitsAux (base : Nat) : Nat → Nat → List Char
  | 0, _ => []
  | fuel + 1, n =>
    if n < base then [Nat.digitChar n]
    else digitsAux base fuel (n / base) ++ [Nat.digitChar (n % base)]

/-- Modelled from the spec: `BigInt::Vin::toStrDec` — decimal rendering of the
arbitrary-precision value (here a natural number), as a character list. -/
def toStrDec (n : Nat) : List Char := digitsAux 10 (n + 1) n

/-- Value of one hexadecimal digit character, `none` for a non-hex character. -/
def hexDigitVal (c : Char) : Option Nat :=
  if '0' ≤ c ∧ c ≤ '9' then some (c.toNat - '0'.toNat)
  else if 'a' ≤ c ∧ c ≤ 'f' then some (c.toNat - 'a'.toNat + 10)
  else if 'A' ≤ c ∧ c ≤ 'F' then some (c.toNat - 'A'.toNat + 10)
  else none

/-- Accumulating hex parse; `none` on the first non-hex character. -/
def parseHexAux : List Char → Nat → Option Nat
  | [], acc => some acc
  | c :: cs, acc =>
    match hexDigitVal c with
    | some d => parseHexAux cs (acc * 16 + d)
    | none => none

/-- Modelled from the spec: `BigInt::Vin(str, 16)` — parse an arbitrary-length
hexadecimal string (`0x` already stripped by the caller); non-hex content is
treated as value 0 rather than raising. -/
def vinFromHex (cs : List Char) : Nat := (parseHexAux cs 0).getD 0

/-- Modelled from the spec: `BigInt::Vin::toStr0xHex` — render as a
`0x`-prefixed hexadecimal string (the client only renders non-negative
values). -/
def toStr0xHex (i : Int) : String :=
  "0x" ++ String.mk (digitsAux 16 (i.toNat + 1) i.toNat)

/-- Modelled from the spec: `BigInt::Vin::fromDouble` — convert the scaled
floating transaction amount into an exact integer of wei.  Doubles are
embedded into ℚ; the integer part is taken. -/
def vinFromDouble (q : ℚ) : Int := q.floor

/-- Modelled from the spec: `BigInt::Vin::toUlong` — the value as a u64
(reduced mod 2^64). -/
def vinToUlong (n : Nat) : Nat := n % 2 ^ 64

/-! ### Data model -/

/-- The closed enumeration `RequestTypes` of call types (from the usage in
`etheripc.cpp`). -/
inductive RequestType where
  | GetAccountRefs
  | GetBalance
  | GetTransactionCount
  | NewAccount
  | DeleteAccount
  | GetBlockNumber
  | GetPeerCount
  | SendTransaction
  | UnlockAccount
  | GetGasPrice
  | NewPendingTransactionFilter
deriving DecidableEq, Repr

/-- One Call Envelope (`RequestIPC`).  The empty constructors of the C++
class leave `fType`, `fIndex` and `fCallID` uninitialized; the type and call
id are modelled as options (`none` = never assigned) and the index of an
empty envelope as the default `-1`. -/
structure RequestIPC where
  fEmpty : Bool
  otype : Option RequestType
  method : String
  params : List Json
  index : Int
  callId : Option Int

/-- `RequestIPC()` — the empty (idle-marker) envelope. -/
def RequestIPC.emptyReq : RequestIPC :=
  { fEmpty := true, otype := none, method := "", params := [], index := -1, callId := none }

/-- `RequestIPC(false)` — the non-empty placeholder used by
`connectToServer` to flag busy; no type, id or payload is assigned. -/
def RequestIPC.placeholder : RequestIPC :=
  { fEmpty := false, otype := none, method := "", params := [], index := -1, callId := none }

/-- One Account Record, created as `AccountInfo(hash, QString(), -1)`. -/
structure AccountInfo where
  hash : String
  balance : String
  transactionCount : Int
deriving DecidableEq, Repr

/-- QLocalSocket connection states used by the client. -/
inductive LSState where
  | Unconnected
  | Connecting
  | Connected
deriving DecidableEq, Repr

/-- The Qt signals emitted by `EtherIPC`. -/
inductive Event where
  | busyChanged (b : Bool)
  | error (msg : String) (code : Int)
  | connectionStateChanged
  | connectToServerDone
  | getAccountsDone (accounts : List AccountInfo)
  | newAccountDone (address : String) (index : Int)
  | deleteAccountDone (result : Bool) (index : Int)
  | getBlockNumberDone (value : Nat)
  | peerCountChanged (value : Nat)
  | sendTransactionDone (hash : String)
  | unlockAccountDone (result : Bool) (index : Int)
  | getGasPriceDone (value : String)
deriving DecidableEq, Repr

/-- The whole client state: the `EtherIPC` fields, the modelled socket, and
the ghost traces (`opens`, `writes`, `enqueued`, `events`). -/
structure EtherState where
  fActiveRequest : RequestIPC
  fRequestQueue : List RequestIPC
  fError : String
  fCode : Int
  fAccountList : List AccountInfo
  fPeerCount : Nat
  fFilterId : Nat
  fPath : String
  socketState : LSState
  socketWritable : Bool
  socketWriteOk : Bool
  socketErrorString : String
  timerArmed : Bool
  nextCallId : Int
  opens : List String
  writes : List RequestIPC
  enqueued : List RequestIPC
  events : List Event

/-- A fresh client over a healthy unconnected socket. -/
def initState : EtherState :=
  { fActiveRequest := .emptyReq, fRequestQueue := [], fError := "", fCode := 0,
    fAccountList := [], fPeerCount := 0, fFilterId := 0, fPath := "",
    socketState := .Unconnected, socketWritable := true, socketWriteOk := true,
    socketErrorString := "", timerArmed := false, nextCallId := 0,
    opens := [], writes := [], enqueued := [], events := [] }

/-! ### Queue core -/

/-- `EtherIPC::getBusy`: busy iff the active envelope is non-empty. -/
def getBusy (s : EtherState) : Bool := !s.fActiveRequest.fEmpty

/-- Record a signal emission in the ghost event trace. -/
def emit (e : Event) (s : EtherState) : EtherState := { s with events := s.events ++ [e] }

/-- `EtherIPC::writeRequest`: serialize the active request to the socket.
Fails (with the error fields set) when the socket is not writable or the
write itself fails; on success the active request is appended to the ghost
write trace. -/
def writeRequest (s : EtherState) : EtherState × Bool :=
  if !s.socketWritable then
    ({ s with fError := "Socket not writeable", fCode := 0 }, false)
  else if !s.socketWriteOk then
    ({ s with fError := "Error on socket write: " ++ s.socketErrorString, fCode := 0 }, false)
  else
    ({ s with writes := s.writes ++ [s.fActiveRequest] }, true)

/-- `EtherIPC::queueRequest`: if no call is active, set the request active,
emit `busyChanged`, and write it immediately, returning the write's result;
otherwise append it to the pending queue and return true.  The request is
also appended to the ghost `enqueued` trace. -/
def queueRequest (r : RequestIPC) (s : EtherState) : EtherState × Bool :=
  let s := { s with enqueued := s.enqueued ++ [r] }
  if s.fActiveRequest.fEmpty then
    let s := { s with fActiveRequest := r }
    let s := emit (.busyChanged (getBusy s)) s
    writeRequest s
  else
    ({ s with fRequestQueue := s.fRequestQueue ++ [r] }, true)

/-- `EtherIPC::done`: advance the queue — pop the front pending request and
write it (the write's result is ignored), or go idle and emit
`busyChanged`. -/
def done (s : EtherState) : EtherState :=
  match s.fRequestQueue with
  | r :: rest => (writeRequest { s with fActiveRequest := r, fRequestQueue := rest }).1
  | [] =>
    let s := { s with fActiveRequest := .emptyReq }
    emit (.busyChanged (getBusy s)) s

/-- `EtherIPC::bail`: clear the active request, discard all pending requests,
emit the error and connection-state-changed signals, then advance. -/
def bail (s : EtherState) : EtherState :=
  let s := { s with fActiveRequest := .emptyReq, fRequestQueue := [] }
  let s := emit (.error s.fError s.fCode) s
  let s := emit .connectionStateChanged s
  done s

/-- Construction of a `RequestIPC` through the (modelled process-wide)
monotone call-id counter. -/
def freshRequest (t : RequestType) (m : String) (ps : List Json) (ix : Int)
    (s : EtherState) : RequestIPC × EtherState :=
  ({ fEmpty := false, otype := some t, method := m, params := ps, index := ix,
     callId := some s.nextCallId },
   { s with nextCallId := s.nextCallId + 1 })

/-- The `if ( !queueRequest(...) ) return bail();` pattern shared by every
public call. -/
def queueOrBail (r : RequestIPC) (s : EtherState) : EtherState :=
  match queueRequest r s with
  | (s, true) => s
  | (s, false) => bail s

/-! ### Response dispatcher -/

/-- The outcome of `fSocket.read(4096)` followed by `QJsonDocument::fromJson`:
an empty/absent read, a JSON parse error, or a parsed document. -/
inductive ReadResult where
  | empty : ReadResult
  | parseError (msg : String) : ReadResult
  | json (j : Json) : ReadResult

/-- `EtherIPC::readReply`: read and validate one response.  Returns the
`result` value on success; on failure returns `none` with the error fields
set (empty read, parse error, call-id mismatch, daemon error object, or
missing result). -/
def readReply (d : ReadResult) (s : EtherState) : EtherState × Option Json :=
  match d with
  | .empty =>
    ({ s with fError := "Error on socket read: " ++ s.socketErrorString, fCode := 0 }, none)
  | .parseError e =>
    ({ s with fError := "Response parse error: " ++ e, fCode := 0 }, none)
  | .json j =>
    let obj := j.toObjFields
    let objID := optToIntDef (-1) (lookupField "id" obj)
    if s.fActiveRequest.callId ≠ some objID then
      ({ s with fError := "Call number mismatch", fCode := 0 }, none)
    else
      let result := lookupField "result" obj
      if result.isNone || optIsNull result then
        match lookupField "error" obj with
        | some err =>
          let eo := err.toObjFields
          let s := if (lookupField "message" eo).isSome then
              { s with fError := optToStringQ (lookupField "message" eo) } else s
          let s := if (lookupField "code" eo).isSome then
              { s with fCode := optToIntDef 0 (lookupField "code" eo) } else s
          (s, none)
        | none => ({ s with fError := "Result object undefined in IPC response" }, none)
      else
        (s, result)

/-- `EtherIPC::readNumber`: read a reply and decode its hex-string result as
a u64. -/
def readNumber (d : ReadResult) (s : EtherState) : EtherState × Option Nat :=
  match readReply d s with
  | (s, none) => (s, none)
  | (s, some jv) =>
    (s, some (vinToUlong (vinFromHex ((jv.toStringDef "0x0").data.drop 2))))

/-- `EtherIPC::toDecStr` on the underlying character list: decode the
hex-string result, render it in decimal, pad to at least 19 digits, and
insert the decimal point 18 digits from the end (the locale's decimal point
is taken to be '.'). -/
def toDecChars (jv : Json) : List Char :=
  let hexStr := (jv.toStringDef "0x0").data.drop 2
  let bv := vinFromHex hexStr
  let dec := toStrDec bv
  let dec := if dec.length ≤ 18 then List.replicate (19 - dec.length) '0' ++ dec else dec
  dec.take (dec.length - 18) ++ '.' :: dec.drop (dec.length - 18)

/-- `EtherIPC::toDecStr` as a string. -/
def toDecStr (jv : Json) : String := String.mk (toDecChars jv)

/-- `fAccountList[i]` in-place mutation at a (QList int) index; the client
only uses indices produced by `handleAccountDetails`. -/
def modifyAtNat (f : AccountInfo → AccountInfo) : Nat → List AccountInfo → List AccountInfo
  | _, [] => []
  | 0, a :: rest => f a :: rest
  | n + 1, a :: rest => a :: modifyAtNat f n rest

/-- Mutation at a signed index (negative indices touch nothing). -/
def modifyAt (f : AccountInfo → AccountInfo) (i : Int) (l : List AccountInfo) :
    List AccountInfo :=
  if i < 0 then l else modifyAtNat f i.toNat l

/-! ### Handlers and public call API -/

/-- `EtherIPC::getAccounts`. -/
def getAccounts (s : EtherState) : EtherState :=
  let (r, s) := freshRequest .GetAccountRefs "personal_listAccounts" [] (-1) s
  queueOrBail r s

/-- The `foreach` body of `EtherIPC::handleAccountDetails`: per returned
address, append an empty Account Record and queue the paired
GetBalance/GetTransactionCount calls; a failed `queueRequest` aborts. -/
def accountDetailsLoop : List Json → Int → EtherState → EtherState × Bool
  | [], _, s => (s, true)
  | r :: rest, i, s =>
    let hash := r.toStringDef "INVALID"
    let s := { s with fAccountList := s.fAccountList ++ [⟨hash, "", -1⟩] }
    let params := [Json.str hash, Json.str "latest"]
    let (rb, s) := freshRequest .GetBalance "eth_getBalance" params i s
    match queueRequest rb s with
    | (s, false) => (s, false)
    | (s, true) =>
      let (rt, s) := freshRequest .GetTransactionCount "eth_getTransactionCount" params i s
      match queueRequest rt s with
      | (s, false) => (s, false)
      | (s, true) => accountDetailsLoop rest (i + 1) s

/-- `EtherIPC::handleAccountDetails`. -/
def handleAccountDetails (d : ReadResult) (s : EtherState) : EtherState :=
  match readReply d s with
  | (s, none) => bail s
  | (s, some jv) =>
    match accountDetailsLoop jv.toArr 0 s with
    | (s, false) => bail s
    | (s, true) => done s

/-- `EtherIPC::handleAccountBalance`. -/
def handleAccountBalance (d : ReadResult) (s : EtherState) : EtherState :=
  match readReply d s with
  | (s, none) => bail s
  | (s, some jv) =>
    let decStr := toDecStr jv
    let s := { s with
      fAccountList := modifyAt (fun a => { a with balance := decStr })
        s.fActiveRequest.index s.fAccountList }
    done s

/-- `EtherIPC::handleAccountTransactionCount`. -/
def handleAccountTransactionCount (d : ReadResult) (s : EtherState) : EtherState :=
  match readReply d s with
  | (s, none) => bail s
  | (s, some jv) =>
    let count := vinToUlong (vinFromHex ((jv.toStringDef "0x0").data.drop 2))
    let s := { s with
      fAccountList := modifyAt (fun a => { a with transactionCount := (count : Int) })
        s.fActiveRequest.index s.fAccountList }
    let s := if s.fActiveRequest.index + 1 = (s.fAccountList.length : Int) then
        emit (.getAccountsDone s.fAccountList) s
      else s
    done s

/-- `EtherIPC::newAccount`. -/
def newAccount (password : String) (index : Int) (s : EtherState) : EtherState :=
  let (r, s) := freshRequest .NewAccount "personal_newAccount" [.str password] index s
  queueOrBail r s

/-- `EtherIPC::handleNewAccount`. -/
def handleNewAccount (d : ReadResult) (s : EtherState) : EtherState :=
  match readReply d s with
  | (s, none) => bail s
  | (s, some jv) =>
    let s := emit (.newAccountDone jv.toStringQ s.fActiveRequest.index) s
    done s

/-- `EtherIPC::deleteAccount`. -/
def deleteAccount (hash password : String) (index : Int) (s : EtherState) : EtherState :=
  let (r, s) :=
    freshRequest .DeleteAccount "personal_deleteAccount" [.str hash, .str password] index s
  queueOrBail r s

/-- `EtherIPC::handleDeleteAccount`. -/
def handleDeleteAccount (d : ReadResult) (s : EtherState) : EtherState :=
  match readReply d s with
  | (s, none) => bail s
  | (s, some jv) =>
    let s := emit (.deleteAccountDone (jv.toBoolDef false) s.fActiveRequest.index) s
    done s

/-- `EtherIPC::getBlockNumber`. -/
def getBlockNumber (s : EtherState) : EtherState :=
  let (r, s) := freshRequest .GetBlockNumber "eth_blockNumber" [] (-1) s
  queueOrBail r s

/-- `EtherIPC::handleGetBlockNumber`. -/
def handleGetBlockNumber (d : ReadResult) (s : EtherState) : EtherState :=
  match readNumber d s with
  | (s, none) => bail s
  | (s, some n) =>
    let s := emit (.getBlockNumberDone n) s
    done s

/-- `EtherIPC::getPeerCount`. -/
def getPeerCount (s : EtherState) : EtherState :=
  let (r, s) := freshRequest .GetPeerCount "net_peerCount" [] (-1) s
  queueOrBail r s

/-- `EtherIPC::handleGetPeerCount` (defined in the source, but never
invoked: the ready-read switch lacks a `GetPeerCount` case). -/
def handleGetPeerCount (d : ReadResult) (s : EtherState) : EtherState :=
  match readNumber d s with
  | (s, none) => bail s
  | (s, some n) =>
    let s := { s with fPeerCount := n }
    let s := emit (.peerCountChanged n) s
    done s

/-- `EtherIPC::sendTransaction`: validate `value > 0`, then build the
envelope with the value scaled by 10^18 and hex-encoded. -/
def sendTransaction (fromAddr toAddr : String) (value : ℚ) (s : EtherState) : EtherState :=
  if value ≤ 0 then
    bail { s with fError := "Invalid transaction value" }
  else
    let strHex := toStr0xHex (vinFromDouble (value * 1000000000000000000))
    let p : Json := .obj [("from", .str fromAddr), ("to", .str toAddr), ("value", .str strHex)]
    let (r, s) := freshRequest .SendTransaction "eth_sendTransaction" [p] (-1) s
    queueOrBail r s

/-- `EtherIPC::handleSendTransaction`. -/
def handleSendTransaction (d : ReadResult) (s : EtherState) : EtherState :=
  match readReply d s with
  | (s, none) => bail s
  | (s, some jv) =>
    let s := emit (.sendTransactionDone jv.toStringQ) s
    done s

/-- `EtherIPC::unlockAccount`: the duration is hex-encoded through the
codec. -/
def unlockAccount (hash password : String) (duration : Int) (index : Int)
    (s : EtherState) : EtherState :=
  let params := [Json.str hash, Json.str password, Json.str (toStr0xHex duration)]
  let (r, s) := freshRequest .UnlockAccount "personal_unlockAccount" params index s
  queueOrBail r s

/-- `EtherIPC::handleUnlockAccount`. -/
def handleUnlockAccount (d : ReadResult) (s : EtherState) : EtherState :=
  match readReply d s with
  | (s, none) => bail s
  | (s, some jv) =>
    let s := emit (.unlockAccountDone (jv.toBoolDef false) s.fActiveRequest.index) s
    done s

/-- `EtherIPC::getGasPrice`. -/
def getGasPrice (s : EtherState) : EtherState :=
  let (r, s) := freshRequest .GetGasPrice "eth_gasPrice" [] (-1) s
  queueOrBail r s

/-- `EtherIPC::handleGetGasPrice`. -/
def handleGetGasPrice (d : ReadResult) (s : EtherState) : EtherState :=
  match readReply d s with
  | (s, none) => bail s
  | (s, some jv) =>
    let s := emit (.getGasPriceDone (toDecStr jv)) s
    done s

/-- `EtherIPC::newPendingTransactionFilter`. -/
def newPendingTransactionFilter (s : EtherState) : EtherState :=
  let (r, s) :=
    freshRequest .NewPendingTransactionFilter "eth_newPendingTransactionFilter" [] (-1) s
  queueOrBail r s

/-- `EtherIPC::handleNewPendingTransactionFilter`. -/
def handleNewPendingTransactionFilter (d : ReadResult) (s : EtherState) : EtherState :=
  match readNumber d s with
  | (s, none) => bail s
  | (s, some n) =>
    done { s with fFilterId := n }

/-- `EtherIPC::onSocketReadyRead`: dispatch the inbound data by the active
request's type.  The source switch has cases for exactly the ten types
below and nothing else: in particular there is no `GetPeerCount` case, so a
reply arriving while a `net_peerCount` call is active falls to
`default: break` and is silently dropped (`handleGetPeerCount` is
unreachable from the dispatcher).  An envelope whose type was never
assigned (the C++ switch on an uninitialized enum) is also modelled as the
default no-op branch. -/
def onSocketReadyRead (d : ReadResult) (s : EtherState) : EtherState :=
  match s.fActiveRequest.otype with
  | some .NewAccount => handleNewAccount d s
  | some .DeleteAccount => handleDeleteAccount d s
  | some .GetBlockNumber => handleGetBlockNumber d s
  | some .GetAccountRefs => handleAccountDetails d s
  | some .GetBalance => handleAccountBalance d s
  | some .GetTransactionCount => handleAccountTransactionCount d s
  | some .SendTransaction => handleSendTransaction d s
  | some .UnlockAccount => handleUnlockAccount d s
  | some .GetGasPrice => handleGetGasPrice d s
  | some .NewPendingTransactionFilter => handleNewPendingTransactionFilter d s
  | some .GetPeerCount => s
  | none => s

/-! ### Connection lifecycle -/

/-- `EtherIPC::connectToServer`: flag busy with the placeholder request,
store the path, refuse if the socket is not unconnected, otherwise open the
transport and arm the 2000 ms connect timer (modelled by `timerArmed`; the
transport open is recorded in the ghost `opens` trace). -/
def connectToServer (path : String) (s : EtherState) : EtherState :=
  let s := { s with fActiveRequest := .placeholder }
  let s := emit (.busyChanged (getBusy s)) s
  let s := { s with fPath := path }
  if s.socketState ≠ .Unconnected then
    bail { s with fError := "Already connected" }
  else
    { s with socketState := .Connecting, timerArmed := true, opens := s.opens ++ [path] }

/-- `EtherIPC::connectedToServer`: clear the placeholder via `done`, queue
the pending-transaction filter install, emit the connected signals. -/
def connectedToServer (s : EtherState) : EtherState :=
  let s := done { s with socketState := .Connected }
  let s := newPendingTransactionFilter s
  let s := emit .connectToServerDone s
  emit .connectionStateChanged s

/-- `EtherIPC::disconnectedFromServer`: escalate to `bail` only when the
socket confirms it is fully unconnected (the slot is also the connect-timer
target). -/
def disconnectedFromServer (s : EtherState) : EtherState :=
  if s.socketState = .Unconnected then
    bail { s with fError := s.socketErrorString }
  else s

/-! ### Driver for the queue-ordering property (C1)

An arbitrary interleaving of public enqueuing calls and socket ready-read
deliveries, over a healthy connected transport.  A ready-read is only
delivered while a call is awaiting its reply (the daemon answers requests;
the C++ dispatch on an idle client would switch on an uninitialized enum). -/

/-- External stimuli: a public call queueing one envelope (with arbitrary
type, method, params and index), or inbound socket data. -/
inductive Cmd where
  | call (t : RequestType) (m : String) (ps : List Json) (ix : Int) : Cmd
  | reply (d : ReadResult) : Cmd

/-- One driver step; the second component counts replies processed (each one
ends in the matching call being completed by `done` or abandoned by
`bail`). -/
def stepC1 : EtherState × Nat → Cmd → EtherState × Nat
  | (s, n), .call t m ps ix =>
    let (r, s) := freshRequest t m ps ix s
    (queueOrBail r s, n)
  | (s, n), .reply d =>
    if s.fActiveRequest.fEmpty then (s, n)
    else (onSocketReadyRead d s, n + 1)

/-- Run a command sequence from the fresh client. -/
def runC1 (cmds : List Cmd) : EtherState × Nat := cmds.foldl stepC1 (initState, 0)

/-- A request produced by `freshRequest`: non-empty, with an assigned type. -/
def wfReq (r : RequestIPC) : Prop := r.fEmpty = false ∧ r.otype.isSome = true

/-- The queue invariant: over a healthy transport, the successful writes are
a subsequence of the enqueued requests, pending requests are well-formed,
and the number of writes never exceeds the number of processed replies by
more than one while a call is in flight (at most the processed count when
idle, with an idle client having an empty pending queue).  The bounds are
inequalities because a reply delivered while a `net_peerCount` call is
active is dropped by the dispatcher's default branch without completing the
call. -/
def QueueInv (s : EtherState) (n : Nat) : Prop :=
  s.socketWritable = true ∧ s.socketWriteOk = true ∧
  (∀ r ∈ s.fRequestQueue, wfReq r) ∧
  (s.fActiveRequest.fEmpty = true →
    s.fRequestQueue = [] ∧ s.writes.length ≤ n ∧ s.writes.Sublist s.enqueued) ∧
  (s.fActiveRequest.fEmpty = false →
    s.fActiveRequest.otype.isSome = true ∧
    (s.writes ++ s.fRequestQueue).Sublist s.enqueued ∧
    s.writes.length ≤ n + 1)

/-- The state fields the queue invariant depends on: `t` agrees with `s` on
all of them. -/
structure queueFieldsEq (s t : EtherState) : Prop where
  active : t.fActiveRequest = s.fActiveRequest
  queue : t.fRequestQueue = s.fRequestQueue
  wr : t.writes = s.writes
  enq : t.enqueued = s.enqueued
  sw : t.socketWritable = s.socketWritable
  sk : t.socketWriteOk = s.socketWriteOk

/-! ### Concrete states for the claim scenarios -/

/-- A sample well-formed envelope for exercising `queueRequest`. -/
def c3req : RequestIPC :=
  { fEmpty := false, otype := some .GetBlockNumber, method := "eth_blockNumber",
    params := [], index := -1, callId := some 0 }

/-- A client already busy with `c3req`. -/
def c3busy : EtherState := { initState with fActiveRequest := c3req }

/-- A client awaiting the reply of an active `net_peerCount` call (id 0). -/
def c5peer : EtherState :=
  { initState with
    fActiveRequest :=
      { fEmpty := false, otype := some .GetPeerCount, method := "net_peerCount",
        params := [], index := -1, callId := some 0 } }

/-- A client awaiting the block-number reply of call 0. -/
def c9state : EtherState :=
  { initState with
    fActiveRequest :=
      { fEmpty := false, otype := some .GetBlockNumber, method := "eth_blockNumber",
        params := [], index := -1, callId := some 0 } }

/-- A matching success response. -/
def c9json : Json := .obj [("id", .num 0), ("result", .str "0x10")]

/-- A well-formed success response for call `i`. -/
def mkReply (i : Int) (res : Json) : ReadResult :=
  .json (.obj [("id", .num i), ("result", res)])

/-- Number of accounts-ready notifications in an event trace. -/
def countAccountsReady (evs : List Event) : Nat :=
  evs.countP (fun e => match e with | .getAccountsDone _ => true | _ => false)

/-- `getAccounts` issued on a fresh client (call id 0). -/
def c6s1 : EtherState := getAccounts initState

/-- The ListAccounts reply with two addresses arrives. -/
def c6s2 : EtherState :=
  onSocketReadyRead (mkReply 0 (.arr [.str "0xA", .str "0xB"])) c6s1

/-- The GetBalance reply for index 0 (call id 1) arrives. -/
def c6s3 : EtherState := onSocketReadyRead (mkReply 1 (.str "0x5")) c6s2

/-- The GetTransactionCount reply for index 0 (call id 2) arrives. -/
def c6s4 : EtherState := onSocketReadyRead (mkReply 2 (.str "0x1")) c6s3

/-- The GetBalance reply for index 1 (call id 3) arrives. -/
def c6s5 : EtherState := onSocketReadyRead (mkReply 3 (.str "0x6")) c6s4

/-- The GetTransactionCount reply for index 1 (call id 4) arrives. -/
def c6s6 : EtherState := onSocketReadyRead (mkReply 4 (.str "0x2")) c6s5

/-- `getAccounts` issued on a fresh client, first round (call id 0). -/
def cAs1 : EtherState := getAccounts initState

/-- Round 1 ListAccounts reply: one address "0xA". -/
def cAs2 : EtherState := onSocketReadyRead (mkReply 0 (.arr [.str "0xA"])) cAs1

/-- Round 1 GetBalance reply for index 0 (call id 1). -/
def cAs3 : EtherState := onSocketReadyRead (mkReply 1 (.str "0x5")) cAs2

/-- Round 1 GetTransactionCount reply for index 0 (call id 2): the round
completes and the accounts-ready event fires. -/
def cAs4 : EtherState := onSocketReadyRead (mkReply 2 (.str "0x2")) cAs3

/-- A second `getAccounts` round (call id 3). -/
def cAs5 : EtherState := getAccounts cAs4

/-- Round 2 ListAccounts reply: one address "0xB", appended to the list. -/
def cAs6 : EtherState := onSocketReadyRead (mkReply 3 (.arr [.str "0xB"])) cAs5

/-- Round 2 GetBalance reply, index 0 (call id 4): mutates record 0 = "0xA". -/
def cAs7 : EtherState := onSocketReadyRead (mkReply 4 (.str "0x7")) cAs6

/-- Round 2 GetTransactionCount reply, index 0 (call id 5): mutates record 0;
no accounts-ready event since 0 + 1 ≠ 2. -/
def cAs8 : EtherState := onSocketReadyRead (mkReply 5 (.str "0x3")) cAs7

/-- A client busy with one active call, for exercising the cascade loop. -/
def c10busy : EtherState :=
  { initState with
    fActiveRequest :=
      { fEmpty := false, otype := some .GetAccountRefs, method := "personal_listAccounts",
        params := [], index := -1, callId := some 0 } }

/-- A connected client with a previously stored path. -/
def c8state : EtherState :=
  { initState with socketState := .Connected, fPath := "geth.old" }

/-! ### Unfolding equations for the queue core -/

theorem queueRequest_idle (r : RequestIPC) (s : EtherState)
    (hE : s.fActiveRequest.fEmpty = true)
    (hw : s.socketWritable = true) (hk : s.socketWriteOk = true) :
    queueRequest r s =
      ({ s with enqueued := s.enqueued ++ [r], fActiveRequest := r,
                events := s.events ++ [.busyChanged (!r.fEmpty)],
                writes := s.writes ++ [r] }, true) := by
  simp [queueRequest, writeRequest, emit, getBusy, hE, hw, hk]

theorem queueRequest_busy (r : RequestIPC) (s : EtherState)
    (hE : s.fActiveRequest.fEmpty = false) :
    queueRequest r s =
      ({ s with enqueued := s.enqueued ++ [r],
                fRequestQueue := s.fRequestQueue ++ [r] }, true) := by
  simp [queueRequest, hE]

theorem done_pop (s : EtherState) (r : RequestIPC) (rest : List RequestIPC)
    (hq : s.fRequestQueue = r :: rest)
    (hw : s.socketWritable = true) (hk : s.socketWriteOk = true) :
    done s =
      { s with fActiveRequest := r, fRequestQueue := rest,
               writes := s.writes ++ [r] } := by
  simp [done, hq, writeRequest, hw, hk]

theorem done_nil (s : EtherState) (hq : s.fRequestQueue = []) :
    done s = { s with fActiveRequest := .emptyReq,
                      events := s.events ++ [.busyChanged false] } := by
  simp [done, hq, emit, getBusy, RequestIPC.emptyReq]

theorem bail_eq (s : EtherState) :
    bail s = { s with fActiveRequest := .emptyReq, fRequestQueue := [],
                      events := s.events ++
                        [.error s.fError s.fCode, .connectionStateChanged,
                         .busyChanged false] } := by
  simp [bail, emit, done, getBusy, RequestIPC.emptyReq]

/-- `readReply` only touches the error fields. -/
theorem readReply_fields (d : ReadResult) (s : EtherState) :
    queueFieldsEq s (readReply d s).1 := by
  cases d with
  | empty => exact ⟨rfl, rfl, rfl, rfl, rfl, rfl⟩
  | parseError e => exact ⟨rfl, rfl, rfl, rfl, rfl, rfl⟩
  | json j =>
    simp only [readReply]
    repeat' split
    all_goals exact ⟨rfl, rfl, rfl, rfl, rfl, rfl⟩

/-- `readNumber` only touches the error fields. -/
theorem readNumber_fields (d : ReadResult) (s : EtherState) :
    queueFieldsEq s (readNumber d s).1 := by
  have h := readReply_fields d s
  unfold readNumber
  rcases hr : readReply d s with ⟨s', r?⟩
  rw [hr] at h
  cases r? <;> exact h

/-! ### Invariant preservation -/

theorem bail_inv (t : EtherState) (m : Nat)
    (hw : t.socketWritable = true) (hk : t.socketWriteOk = true)
    (hsub : t.writes.Sublist t.enqueued) (hlen : t.writes.length ≤ m) :
    QueueInv (bail t) m := by
  rw [bail_eq]
  exact ⟨hw, hk, by simp, fun _ => ⟨rfl, hlen, hsub⟩, fun h => by cases h⟩

theorem done_inv (t : EtherState) (m : Nat)
    (hw : t.socketWritable = true) (hk : t.socketWriteOk = true)
    (hwf : ∀ r ∈ t.fRequestQueue, wfReq r)
    (hsub : (t.writes ++ t.fRequestQueue).Sublist t.enqueued)
    (hlen : t.writes.length ≤ m) :
    QueueInv (done t) m := by
  cases hq : t.fRequestQueue with
  | nil =>
    rw [done_nil t hq]
    rw [hq, List.append_nil] at hsub
    exact ⟨hw, hk, by simp [hq], fun _ => ⟨hq, hlen, hsub⟩, fun h => by cases h⟩
  | cons r rest =>
    have hr : wfReq r := hwf r (by rw [hq]; exact List.mem_cons_self _ _)
    rw [done_pop t r rest hq hw hk]
    refine ⟨hw, hk, ?_, ?_, ?_⟩
    · intro x hx
      exact hwf x (by rw [hq]; exact List.mem_cons_of_mem _ hx)
    · intro hfalse
      rw [hr.1] at hfalse
      cases hfalse
    · intro _
      refine ⟨hr.2, ?_,
        by simp only [List.length_append, List.length_cons, List.length_nil]; omega⟩
      have heq : t.writes ++ [r] ++ rest = t.writes ++ t.fRequestQueue := by
        rw [hq]
        simp
      show (t.writes ++ [r] ++ rest).Sublist t.enqueued
      rw [heq]
      exact hsub

/-- After a reply is processed while a call is in flight, both possible
endings of a handler — `done` on a state agreeing on the queue fields, or
`bail` on such a state — restore the invariant with one more processed
reply. -/
theorem process_inv (s t : EtherState) (n : Nat) (hinv : QueueInv s n)
    (hb : s.fActiveRequest.fEmpty = false) (hf : queueFieldsEq s t) :
    QueueInv (done t) (n + 1) ∧ QueueInv (bail t) (n + 1) := by
  obtain ⟨hw, hk, hwf, _, hbusy⟩ := hinv
  obtain ⟨_, hsub, hlen⟩ := hbusy hb
  constructor
  · apply done_inv
    · rw [hf.sw]; exact hw
    · rw [hf.sk]; exact hk
    · intro r hr
      rw [hf.queue] at hr
      exact hwf r hr
    · rw [hf.wr, hf.queue, hf.enq]; exact hsub
    · rw [hf.wr]; exact hlen
  · apply bail_inv
    · rw [hf.sw]; exact hw
    · rw [hf.sk]; exact hk
    · rw [hf.wr, hf.enq]
      exact (List.sublist_append_left s.writes s.fRequestQueue).trans hsub
    · rw [hf.wr]; exact hlen

/-- The cascade loop of `handleAccountDetails` only appends (well-formed)
requests to the pending queue — the active request is untouched, nothing is
written, and the loop cannot fail while a call is active. -/
theorem accountDetailsLoop_spec (refs : List Json) : ∀ (i : Int) (s : EtherState),
    s.fActiveRequest.fEmpty = false →
    ∃ added : List RequestIPC,
      accountDetailsLoop refs i s =
        ({ (accountDetailsLoop refs i s).1 with
            fActiveRequest := s.fActiveRequest,
            fAccountList := s.fAccountList ++
              refs.map (fun r => ⟨r.toStringDef "INVALID", "", -1⟩),
            fRequestQueue := s.fRequestQueue ++ added,
            writes := s.writes,
            enqueued := s.enqueued ++ added,
            socketWritable := s.socketWritable,
            socketWriteOk := s.socketWriteOk }, true) ∧
      (∀ r ∈ added, wfReq r) := by
  induction refs with
  | nil =>
    intro i s _
    exact ⟨[], by simp [accountDetailsLoop], by simp⟩
  | cons jr rest ih =>
    intro i s hb
    have h1 : accountDetailsLoop (jr :: rest) i s =
        accountDetailsLoop rest (i + 1)
          { s with
            fAccountList := s.fAccountList ++ [⟨jr.toStringDef "INVALID", "", -1⟩],
            nextCallId := s.nextCallId + 1 + 1,
            fRequestQueue := s.fRequestQueue ++
              [{ fEmpty := false, otype := some .GetBalance, method := "eth_getBalance",
                 params := [Json.str (jr.toStringDef "INVALID"), Json.str "latest"],
                 index := i, callId := some s.nextCallId }] ++
              [{ fEmpty := false, otype := some .GetTransactionCount,
                 method := "eth_getTransactionCount",
                 params := [Json.str (jr.toStringDef "INVALID"), Json.str "latest"],
                 index := i, callId := some (s.nextCallId + 1) }],
            enqueued := s.enqueued ++
              [{ fEmpty := false, otype := some .GetBalance, method := "eth_getBalance",
                 params := [Json.str (jr.toStringDef "INVALID"), Json.str "latest"],
                 index := i, callId := some s.nextCallId }] ++
              [{ fEmpty := false, otype := some .GetTransactionCount,
                 method := "eth_getTransactionCount",
                 params := [Json.str (jr.toStringDef "INVALID"), Json.str "latest"],
                 index := i, callId := some (s.nextCallId + 1) }] } := by
      simp only [accountDetailsLoop, freshRequest, queueRequest_busy, hb]
    rw [h1]
    obtain ⟨added, hrec, hwfa⟩ := ih (i + 1)
      { s with
            fAccountList := s.fAccountList ++ [⟨jr.toStringDef "INVALID", "", -1⟩],
            nextCallId := s.nextCallId + 1 + 1,
            fRequestQueue := s.fRequestQueue ++
              [{ fEmpty := false, otype := some .GetBalance, method := "eth_getBalance",
                 params := [Json.str (jr.toStringDef "INVALID"), Json.str "latest"],
                 index := i, callId := some s.nextCallId }] ++
              [{ fEmpty := false, otype := some .GetTransactionCount,
                 method := "eth_getTransactionCount",
                 params := [Json.str (jr.toStringDef "INVALID"), Json.str "latest"],
                 index := i, callId := some (s.nextCallId + 1) }],
            enqueued := s.enqueued ++
              [{ fEmpty := false, otype := some .GetBalance, method := "eth_getBalance",
                 params := [Json.str (jr.toStringDef "INVALID"), Json.str "latest"],
                 index := i, callId := some s.nextCallId }] ++
              [{ fEmpty := false, otype := some .GetTransactionCount,
                 method := "eth_getTransactionCount",
                 params := [Json.str (jr.toStringDef "INVALID"), Json.str "latest"],
                 index := i, callId := some (s.nextCallId + 1) }] } (by exact hb)
    refine ⟨[{ fEmpty := false, otype := some .GetBalance, method := "eth_getBalance",
               params := [Json.str (jr.toStringDef "INVALID"), Json.str "latest"],
               index := i, callId := some s.nextCallId },
             { fEmpty := false, otype := some .GetTransactionCount,
               method := "eth_getTransactionCount",
               params := [Json.str (jr.toStringDef "INVALID"), Json.str "latest"],
               index := i, callId := some (s.nextCallId + 1) }] ++ added, ?_, ?_⟩
    · rw [hrec]
      simp
    · intro r hr
      rcases List.mem_append.1 hr with h | h
      · rcases List.mem_cons.1 h with h' | h'
        · rw [h']; exact ⟨rfl, rfl⟩
        · rcases List.mem_cons.1 h' with h'' | h''
          · rw [h'']; exact ⟨rfl, rfl⟩
          · cases h''
      · exact hwfa r h

theorem handleAccountBalance_inv (d : ReadResult) (s : EtherState) (n : Nat)
    (hinv : QueueInv s n) (hb : s.fActiveRequest.fEmpty = false) :
    QueueInv (handleAccountBalance d s) (n + 1) := by
  unfold handleAccountBalance
  rcases h : readReply d s with ⟨s', r?⟩
  have hf : queueFieldsEq s s' := by
    have := readReply_fields d s
    rwa [h] at this
  cases r? with
  | none => exact (process_inv s s' n hinv hb hf).2
  | some jv =>
    refine (process_inv s ?_ n hinv hb ?_).1
    exact ⟨hf.active, hf.queue, hf.wr, hf.enq, hf.sw, hf.sk⟩

theorem handleNewAccount_inv (d : ReadResult) (s : EtherState) (n : Nat)
    (hinv : QueueInv s n) (hb : s.fActiveRequest.fEmpty = false) :
    QueueInv (handleNewAccount d s) (n + 1) := by
  unfold handleNewAccount
  rcases h : readReply d s with ⟨s', r?⟩
  have hf : queueFieldsEq s s' := by
    have := readReply_fields d s
    rwa [h] at this
  cases r? with
  | none => exact (process_inv s s' n hinv hb hf).2
  | some jv =>
    refine (process_inv s ?_ n hinv hb ?_).1
    exact ⟨hf.active, hf.queue, hf.wr, hf.enq, hf.sw, hf.sk⟩

theorem handleDeleteAccount_inv (d : ReadResult) (s : EtherState) (n : Nat)
    (hinv : QueueInv s n) (hb : s.fActiveRequest.fEmpty = false) :
    QueueInv (handleDeleteAccount d s) (n + 1) := by
  unfold handleDeleteAccount
  rcases h : readReply d s with ⟨s', r?⟩
  have hf : queueFieldsEq s s' := by
    have := readReply_fields d s
    rwa [h] at this
  cases r? with
  | none => exact (process_inv s s' n hinv hb hf).2
  | some jv =>
    refine (process_inv s ?_ n hinv hb ?_).1
    exact ⟨hf.active, hf.queue, hf.wr, hf.enq, hf.sw, hf.sk⟩

theorem handleSendTransaction_inv (d : ReadResult) (s : EtherState) (n : Nat)
    (hinv : QueueInv s n) (hb : s.fActiveRequest.fEmpty = false) :
    QueueInv (handleSendTransaction d s) (n + 1) := by
  unfold handleSendTransaction
  rcases h : readReply d s with ⟨s', r?⟩
  have hf : queueFieldsEq s s' := by
    have := readReply_fields d s
    rwa [h] at this
  cases r? with
  | none => exact (process_inv s s' n hinv hb hf).2
  | some jv =>
    refine (process_inv s ?_ n hinv hb ?_).1
    exact ⟨hf.active, hf.queue, hf.wr, hf.enq, hf.sw, hf.sk⟩

theorem handleUnlockAccount_inv (d : ReadResult) (s : EtherState) (n : Nat)
    (hinv : QueueInv s n) (hb : s.fActiveRequest.fEmpty = false) :
    QueueInv (handleUnlockAccount d s) (n + 1) := by
  unfold handleUnlockAccount
  rcases h : readReply d s with ⟨s', r?⟩
  have hf : queueFieldsEq s s' := by
    have := readReply_fields d s
    rwa [h] at this
  cases r? with
  | none => exact (process_inv s s' n hinv hb hf).2
  | some jv =>
    refine (process_inv s ?_ n hinv hb ?_).1
    exact ⟨hf.active, hf.queue, hf.wr, hf.enq, hf.sw, hf.sk⟩

theorem handleGetGasPrice_inv (d : ReadResult) (s : EtherState) (n : Nat)
    (hinv : QueueInv s n) (hb : s.fActiveRequest.fEmpty = false) :
    QueueInv (handleGetGasPrice d s) (n + 1) := by
  unfold handleGetGasPrice
  rcases h : readReply d s with ⟨s', r?⟩
  have hf : queueFieldsEq s s' := by
    have := readReply_fields d s
    rwa [h] at this
  cases r? with
  | none => exact (process_inv s s' n hinv hb hf).2
  | some jv =>
    refine (process_inv s ?_ n hinv hb ?_).1
    exact ⟨hf.active, hf.queue, hf.wr, hf.enq, hf.sw, hf.sk⟩

theorem handleGetBlockNumber_inv (d : ReadResult) (s : EtherState) (n : Nat)
    (hinv : QueueInv s n) (hb : s.fActiveRequest.fEmpty = false) :
    QueueInv (handleGetBlockNumber d s) (n + 1) := by
  unfold handleGetBlockNumber
  rcases h : readNumber d s with ⟨s', r?⟩
  have hf : queueFieldsEq s s' := by
    have := readNumber_fields d s
    rwa [h] at this
  cases r? with
  | none => exact (process_inv s s' n hinv hb hf).2
  | some jv =>
    refine (process_inv s ?_ n hinv hb ?_).1
    exact ⟨hf.active, hf.queue, hf.wr, hf.enq, hf.sw, hf.sk⟩

theorem handleNewPendingTransactionFilter_inv (d : ReadResult) (s : EtherState) (n : Nat)
    (hinv : QueueInv s n) (hb : s.fActiveRequest.fEmpty = false) :
    QueueInv (handleNewPendingTransactionFilter d s) (n + 1) := by
  unfold handleNewPendingTransactionFilter
  rcases h : readNumber d s with ⟨s', r?⟩
  have hf : queueFieldsEq s s' := by
    have := readNumber_fields d s
    rwa [h] at this
  cases r? with
  | none => exact (process_inv s s' n hinv hb hf).2
  | some jv =>
    refine (process_inv s ?_ n hinv hb ?_).1
    exact ⟨hf.active, hf.queue, hf.wr, hf.enq, hf.sw, hf.sk⟩

theorem handleAccountTransactionCount_inv (d : ReadResult) (s : EtherState) (n : Nat)
    (hinv : QueueInv s n) (hb : s.fActiveRequest.fEmpty = false) :
    QueueInv (handleAccountTransactionCount d s) (n + 1) := by
  unfold handleAccountTransactionCount
  rcases h : readReply d s with ⟨s', r?⟩
  have hf : queueFieldsEq s s' := by
    have := readReply_fields d s
    rwa [h] at this
  cases r? with
  | none => exact (process_inv s s' n hinv hb hf).2
  | some jv =>
    refine (process_inv s ?_ n hinv hb ?_).1
    split
    · exact ⟨hf.active, hf.queue, hf.wr, hf.enq, hf.sw, hf.sk⟩
    · exact ⟨hf.active, hf.queue, hf.wr, hf.enq, hf.sw, hf.sk⟩

theorem handleAccountDetails_inv (d : ReadResult) (s : EtherState) (n : Nat)
    (hinv : QueueInv s n) (hb : s.fActiveRequest.fEmpty = false) :
    QueueInv (handleAccountDetails d s) (n + 1) := by
  unfold handleAccountDetails
  rcases h : readReply d s with ⟨s', r?⟩
  have hf : queueFieldsEq s s' := by
    have := readReply_fields d s
    rwa [h] at this
  cases r? with
  | none => exact (process_inv s s' n hinv hb hf).2
  | some jv =>
    show QueueInv (match accountDetailsLoop jv.toArr 0 s' with
      | (s, false) => bail s
      | (s, true) => done s) (n + 1)
    have hb' : s'.fActiveRequest.fEmpty = false := by rw [hf.active]; exact hb
    obtain ⟨added, hrec, hwfa⟩ := accountDetailsLoop_spec jv.toArr 0 s' hb'
    rw [hrec]
    obtain ⟨hw, hk, hwf, _, hbusy⟩ := hinv
    obtain ⟨_, hsub, hlen⟩ := hbusy hb
    apply done_inv
    · exact hf.sw.trans hw
    · exact hf.sk.trans hk
    · show ∀ r ∈ s'.fRequestQueue ++ added, wfReq r
      intro r hr
      rcases List.mem_append.1 hr with hx | hx
      · rw [hf.queue] at hx
        exact hwf r hx
      · exact hwfa r hx
    · show (s'.writes ++ (s'.fRequestQueue ++ added)).Sublist (s'.enqueued ++ added)
      rw [hf.wr, hf.queue, hf.enq, ← List.append_assoc]
      exact hsub.append (List.Sublist.refl added)
    · show s'.writes.length ≤ n + 1
      rw [hf.wr]
      exact hlen

/-- Processing one more reply can only relax the write-count bounds. -/
theorem QueueInv_mono (s : EtherState) (n : Nat) (hinv : QueueInv s n) :
    QueueInv s (n + 1) := by
  obtain ⟨hw, hk, hwf, hidle, hbusy⟩ := hinv
  refine ⟨hw, hk, hwf, ?_, ?_⟩
  · intro h
    obtain ⟨h1, h2, h3⟩ := hidle h
    exact ⟨h1, by omega, h3⟩
  · intro h
    obtain ⟨h1, h2, h3⟩ := hbusy h
    exact ⟨h1, h2, by omega⟩

theorem onSocketReadyRead_inv (d : ReadResult) (s : EtherState) (n : Nat)
    (hinv : QueueInv s n) (hb : s.fActiveRequest.fEmpty = false) :
    QueueInv (onSocketReadyRead d s) (n + 1) := by
  have hsome := (hinv.2.2.2.2 hb).1
  unfold onSocketReadyRead
  rcases ht : s.fActiveRequest.otype with _ | t
  · rw [ht] at hsome
    cases hsome
  · cases t with
    | GetAccountRefs => exact handleAccountDetails_inv d s n hinv hb
    | GetBalance => exact handleAccountBalance_inv d s n hinv hb
    | GetTransactionCount => exact handleAccountTransactionCount_inv d s n hinv hb
    | NewAccount => exact handleNewAccount_inv d s n hinv hb
    | DeleteAccount => exact handleDeleteAccount_inv d s n hinv hb
    | GetBlockNumber => exact handleGetBlockNumber_inv d s n hinv hb
    | GetPeerCount => exact QueueInv_mono s n hinv
    | SendTransaction => exact handleSendTransaction_inv d s n hinv hb
    | UnlockAccount => exact handleUnlockAccount_inv d s n hinv hb
    | GetGasPrice => exact handleGetGasPrice_inv d s n hinv hb
    | NewPendingTransactionFilter => exact handleNewPendingTransactionFilter_inv d s n hinv hb

theorem stepC1_inv (p : EtherState × Nat) (c : Cmd) (hinv : QueueInv p.1 p.2) :
    QueueInv (stepC1 p c).1 (stepC1 p c).2 := by
  rcases p with ⟨s, n⟩
  cases c with
  | call t m ps ix =>
    show QueueInv (queueOrBail _ { s with nextCallId := s.nextCallId + 1 }) n
    obtain ⟨hw, hk, hwf, hidle, hbusy⟩ := hinv
    unfold queueOrBail
    by_cases hE : s.fActiveRequest.fEmpty = true
    · obtain ⟨hqnil, hlen, hsub⟩ := hidle hE
      rw [queueRequest_idle _ _ (by exact hE) (by exact hw) (by exact hk)]
      refine ⟨hw, hk, ?_, ?_, ?_⟩
      · show ∀ r ∈ s.fRequestQueue, wfReq r
        exact hwf
      · intro hfalse
        exact Bool.noConfusion hfalse
      · intro _
        refine ⟨rfl, ?_, ?_⟩
        · show ((s.writes ++ _) ++ s.fRequestQueue).Sublist (s.enqueued ++ _)
          rw [hqnil, List.append_nil]
          exact hsub.append (List.Sublist.refl _)
        · simp at hlen
          simp only [List.length_append, List.length_cons, List.length_nil]
          omega
    · have hE' : s.fActiveRequest.fEmpty = false := by
        revert hE
        cases s.fActiveRequest.fEmpty <;> simp
      obtain ⟨_, hsub, hlen⟩ := hbusy hE'
      rw [queueRequest_busy _ _ (by exact hE')]
      refine ⟨hw, hk, ?_, ?_, ?_⟩
      · show ∀ r ∈ s.fRequestQueue ++ _, wfReq r
        intro r hr
        rcases List.mem_append.1 hr with hx | hx
        · exact hwf r hx
        · rcases List.mem_cons.1 hx with h' | h'
          · rw [h']
            exact ⟨rfl, rfl⟩
          · cases h'
      · intro hfalse
        rw [hE'] at hfalse
        exact Bool.noConfusion hfalse
      · intro _
        refine ⟨(hbusy hE').1, ?_, by exact hlen⟩
        show (s.writes ++ (s.fRequestQueue ++ _)).Sublist (s.enqueued ++ _)
        rw [← List.append_assoc]
        exact hsub.append (List.Sublist.refl _)
  | reply d =>
    show QueueInv (if s.fActiveRequest.fEmpty then (s, n) else (onSocketReadyRead d s, n + 1)).1
      (if s.fActiveRequest.fEmpty then (s, n) else (onSocketReadyRead d s, n + 1)).2
    by_cases hE : s.fActiveRequest.fEmpty = true
    · rw [if_pos hE]
      exact hinv
    · have hE' : s.fActiveRequest.fEmpty = false := by
        revert hE
        cases s.fActiveRequest.fEmpty <;> simp
      rw [if_neg hE]
      exact onSocketReadyRead_inv d s n hinv hE'

theorem runC1_inv (cmds : List Cmd) : QueueInv (runC1 cmds).1 (runC1 cmds).2 := by
  have hgen : ∀ (cs : List Cmd) (p : EtherState × Nat), QueueInv p.1 p.2 →
      QueueInv (cs.foldl stepC1 p).1 (cs.foldl stepC1 p).2 := by
    intro cs
    induction cs with
    | nil => intro p hp; exact hp
    | cons c rest ih =>
      intro p hp
      exact ih (stepC1 p c) (stepC1_inv p c hp)
  exact hgen cmds (initState, 0)
    ⟨rfl, rfl, by simp [initState], fun _ => ⟨rfl, Nat.le_refl 0, List.nil_sublist []⟩,
     fun h => Bool.noConfusion h⟩

/-! ### Claim theorems -/

/-- C1: for every interleaving of public enqueuing calls and reply
deliveries over a healthy transport, the transport receives the request
writes as a subsequence of the enqueued requests, in enqueue order, and the
number of writes never exceeds the number of delivered replies plus one —
at most one call is in flight at any time.  A delivered reply either ends
with the matching call completed by `done` or abandoned by `bail`, or — for
an active `net_peerCount` call — is dropped by the dispatcher's default
branch, which leaves the queue stalled but writes nothing. -/
theorem writes_follow_enqueue_order_one_in_flight (cmds : List Cmd) :
    ((runC1 cmds).1.writes).Sublist ((runC1 cmds).1.enqueued) ∧
    (runC1 cmds).1.writes.length ≤ (runC1 cmds).2 + 1 := by
  obtain ⟨hw, hk, hwf, hidle, hbusy⟩ := runC1_inv cmds
  by_cases hb : (runC1 cmds).1.fActiveRequest.fEmpty = true
  · obtain ⟨_, hlen, hsub⟩ := hidle hb
    exact ⟨hsub, by omega⟩
  · have hb' : (runC1 cmds).1.fActiveRequest.fEmpty = false := by
      revert hb
      cases (runC1 cmds).1.fActiveRequest.fEmpty <;> simp
    obtain ⟨_, hsub, hlen⟩ := hbusy hb'
    exact ⟨(List.sublist_append_left _ _).trans hsub, by omega⟩

/-- C2: after every invocation of `bail`, the queue is idle — the active
slot holds the empty envelope, the pending queue is empty, `getBusy` is
false — and exactly one error event carrying the stored message and code
plus one connection-state-changed event (and the final busy-changed
notification) have been appended; pending calls are discarded, never
retried (the write trace is unchanged). -/
theorem bail_leaves_queue_idle (s : EtherState) :
    bail s = { s with fActiveRequest := .emptyReq, fRequestQueue := [],
                      events := s.events ++
                        [.error s.fError s.fCode, .connectionStateChanged,
                         .busyChanged false] } ∧
    getBusy (bail s) = false := by
  refine ⟨bail_eq s, ?_⟩
  rw [bail_eq]
  rfl

/-- C3: `queueRequest` with no active call sets the envelope active, emits
the busy notification, and writes it to the transport immediately,
returning the write's outcome synchronously (a failed write — socket not
writable, or the write itself failing — returns false with the error set
and nothing written); with a call already active it appends the envelope to
the pending queue and returns true without any transport write. -/
theorem queueRequest_spec (r : RequestIPC) (s : EtherState) :
    (s.fActiveRequest.fEmpty = true → s.socketWritable = true → s.socketWriteOk = true →
      queueRequest r s =
        ({ s with enqueued := s.enqueued ++ [r], fActiveRequest := r,
                  events := s.events ++ [.busyChanged (!r.fEmpty)],
                  writes := s.writes ++ [r] }, true)) ∧
    (s.fActiveRequest.fEmpty = true → s.socketWritable = false →
      queueRequest r s =
        ({ s with enqueued := s.enqueued ++ [r], fActiveRequest := r,
                  events := s.events ++ [.busyChanged (!r.fEmpty)],
                  fError := "Socket not writeable", fCode := 0 }, false)) ∧
    (s.fActiveRequest.fEmpty = true → s.socketWritable = true → s.socketWriteOk = false →
      queueRequest r s =
        ({ s with enqueued := s.enqueued ++ [r], fActiveRequest := r,
                  events := s.events ++ [.busyChanged (!r.fEmpty)],
                  fError := "Error on socket write: " ++ s.socketErrorString,
                  fCode := 0 }, false)) ∧
    (s.fActiveRequest.fEmpty = false →
      queueRequest r s =
        ({ s with enqueued := s.enqueued ++ [r],
                  fRequestQueue := s.fRequestQueue ++ [r] }, true)) := by
  refine ⟨?_, ?_, ?_, ?_⟩
  · intro hE hw hk
    simp [queueRequest, writeRequest, emit, getBusy, hE, hw, hk]
  · intro hE hw
    simp [queueRequest, writeRequest, emit, getBusy, hE, hw]
  · intro hE hw hk
    simp [queueRequest, writeRequest, emit, getBusy, hE, hw, hk]
  · intro hE
    simp [queueRequest, hE]

theorem queueRequest_spec_witness :
    queueRequest c3req initState =
      ({ initState with enqueued := [c3req], fActiveRequest := c3req,
                        events := [.busyChanged true], writes := [c3req] }, true) ∧
    queueRequest c3req c3busy =
      ({ c3busy with enqueued := [c3req], fRequestQueue := [c3req] }, true) := by
  constructor
  · have h := (queueRequest_spec c3req initState).1 rfl rfl rfl
    rw [h]
    exact rfl
  · have h := (queueRequest_spec c3req c3busy).2.2.2 rfl
    rw [h]
    exact rfl

/-- The padding step of `toDecStr` guarantees at least 19 digits. -/
theorem padded_length_ge (dec : List Char) :
    19 ≤ (if dec.length ≤ 18 then List.replicate (19 - dec.length) '0' ++ dec
          else dec).length := by
  split
  · simp only [List.length_append, List.length_replicate]
    omega
  · omega

/-- C4: the decimal renderer pads the digit string to at least 19 digits and
inserts the decimal point 18 digits from the end; in particular hex "0x5"
renders as "0.000000000000000005", hex "0xde0b6b3a7640000" (10^18) as
"1.000000000000000000", and "0x0" as "0.000000000000000000". -/
theorem toDecStr_rendering :
    toDecStr (.str "0x5") = "0.000000000000000005" ∧
    toDecStr (.str "0xde0b6b3a7640000") = "1.000000000000000000" ∧
    toDecStr (.str "0x0") = "0.000000000000000000" ∧
    ∀ jv : Json, ∃ intPart fracPart : List Char,
      toDecChars jv = intPart ++ '.' :: fracPart ∧
      fracPart.length = 18 ∧ 1 ≤ intPart.length := by
  refine ⟨by rfl, by rfl, by rfl, ?_⟩
  intro jv
  have h19 := padded_length_ge (toStrDec (vinFromHex ((jv.toStringDef "0x0").data.drop 2)))
  refine ⟨_, _, rfl, ?_, ?_⟩
  · rw [List.length_drop]
    omega
  · rw [List.length_take]
    omega

/-- C5 (demonstrating the code bug at the failing input): while a
`net_peerCount` call is the active request, the dispatcher's switch — which
has no `GetPeerCount` case — silently drops an inbound response.  In
particular a response whose id field (7) does not equal the active call's
callId (0) leaves the state completely unchanged: no "Call number mismatch"
error is raised, no error or connection-state-changed event is emitted, and
the queue is not reset; a correctly matching reply is dropped the same way,
so the call can never complete and the client stays busy. -/
theorem peerCount_reply_dropped :
    onSocketReadyRead (.json (.obj [("id", .num 7), ("result", .str "0x1")])) c5peer =
      c5peer ∧
    onSocketReadyRead (mkReply 0 (.str "0x1")) c5peer = c5peer ∧
    getBusy c5peer = true :=
  ⟨rfl, rfl, rfl⟩

/-- A JSON value other than `null` is not flagged null. -/
theorem optIsNull_some_eq_false (r : Json) (h : r ≠ Json.null) :
    optIsNull (some r) = false := by
  cases r
  · exact absurd rfl h
  all_goals rfl

/-- C9: for every parsed response object whose id matches the active call's
callId, `readReply` classifies it exhaustively and in this order: a present
non-null `result` succeeds, returning the result with the state unchanged;
otherwise a present `error` object fails, capturing its message (when a
string is present) and code (when a number is present); otherwise it fails
with the generic "result undefined" error. -/
theorem readReply_classification (s : EtherState) (j : Json)
    (hid : s.fActiveRequest.callId =
      some (optToIntDef (-1) (lookupField "id" j.toObjFields))) :
    (∀ r, lookupField "result" j.toObjFields = some r → r ≠ Json.null →
      readReply (.json j) s = (s, some r)) ∧
    ((lookupField "result" j.toObjFields = none ∨
        lookupField "result" j.toObjFields = some Json.null) →
      (∀ err, lookupField "error" j.toObjFields = some err →
        (readReply (.json j) s).2 = none ∧
        (∀ m, lookupField "message" err.toObjFields = some (Json.str m) →
          ((readReply (.json j) s).1).fError = m) ∧
        (∀ c, lookupField "code" err.toObjFields = some (Json.num c) →
          ((readReply (.json j) s).1).fCode = c)) ∧
      (lookupField "error" j.toObjFields = none →
        readReply (.json j) s =
          ({ s with fError := "Result object undefined in IPC response" }, none))) := by
  have hno : ¬(s.fActiveRequest.callId ≠
      some (optToIntDef (-1) (lookupField "id" j.toObjFields))) := by
    rw [hid]
    exact fun h => h rfl
  constructor
  · intro r hres hnn
    simp only [readReply, hres]
    rw [if_neg hno]
    simp [optIsNull_some_eq_false r hnn]
  · intro hres
    have hcond : ((lookupField "result" j.toObjFields).isNone ||
        optIsNull (lookupField "result" j.toObjFields)) = true := by
      rcases hres with h | h <;> rw [h] <;> rfl
    constructor
    · intro err herr
      refine ⟨?_, ?_, ?_⟩
      · simp only [readReply, herr]
        rw [if_neg hno, hcond]
        rfl
      · intro m hm
        simp only [readReply, herr]
        rw [if_neg hno, hcond]
        simp only [if_pos rfl, hm, Option.isSome_some, if_true]
        split <;> rfl
      · intro c hc
        simp only [readReply, herr]
        rw [if_neg hno, hcond]
        simp only [if_pos rfl, hc, Option.isSome_some, if_true]
        rfl
    · intro herrnone
      simp only [readReply, herrnone]
      rw [if_neg hno, hcond]
      rfl

theorem readReply_classification_witness :
    readReply (.json c9json) c9state = (c9state, some (.str "0x10")) :=
  (readReply_classification c9state c9json rfl).1 (.str "0x10") rfl
    (fun h => Json.noConfusion h)

/-! ### Concrete round-trip scenarios -/

/-- C6: processing a ListAccounts reply with addresses ["0xA","0xB"]
enqueues exactly four follow-up calls — one GetBalance and one
GetTransactionCount per address, with index equal to the address's
position — and the accounts-ready event is emitted exactly once, only after
both GetTransactionCount replies (indices 0 and 1) have been processed. -/
theorem listAccounts_cascade_and_ready :
    c6s2.enqueued = c6s1.enqueued ++
      [{ fEmpty := false, otype := some .GetBalance, method := "eth_getBalance",
         params := [.str "0xA", .str "latest"], index := 0, callId := some 1 },
       { fEmpty := false, otype := some .GetTransactionCount,
         method := "eth_getTransactionCount",
         params := [.str "0xA", .str "latest"], index := 0, callId := some 2 },
       { fEmpty := false, otype := some .GetBalance, method := "eth_getBalance",
         params := [.str "0xB", .str "latest"], index := 1, callId := some 3 },
       { fEmpty := false, otype := some .GetTransactionCount,
         method := "eth_getTransactionCount",
         params := [.str "0xB", .str "latest"], index := 1, callId := some 4 }] ∧
    countAccountsReady c6s2.events = 0 ∧
    countAccountsReady c6s3.events = 0 ∧
    countAccountsReady c6s4.events = 0 ∧
    countAccountsReady c6s5.events = 0 ∧
    countAccountsReady c6s6.events = 1 ∧
    c6s6.fAccountList =
      [{ hash := "0xA", balance := "0.000000000000000005", transactionCount := 1 },
       { hash := "0xB", balance := "0.000000000000000006", transactionCount := 2 }] := by
  refine ⟨rfl, rfl, rfl, rfl, rfl, rfl, rfl⟩

/-- C10: the account list is never cleared — every ListAccounts reply
appends one record per address to the existing list (first conjunct, in
general) — so in a second `getAccounts` round after a completed first round
with one account, the round-2 follow-up replies (index 0) mutate the
round-1 record, the round-2 record "0xB" stays unfilled, and the
accounts-ready event never fires for the second round (its only follow-up
index is 0, and 0 + 1 differs from the grown length 2). -/
theorem account_list_never_cleared :
    (∀ (refs : List Json) (i : Int) (s : EtherState),
      s.fActiveRequest.fEmpty = false →
      (accountDetailsLoop refs i s).1.fAccountList =
        s.fAccountList ++ refs.map (fun r => ⟨r.toStringDef "INVALID", "", -1⟩)) ∧
    cAs4.fAccountList =
      [{ hash := "0xA", balance := "0.000000000000000005", transactionCount := 2 }] ∧
    countAccountsReady cAs4.events = 1 ∧
    cAs6.fAccountList.length = 2 ∧
    cAs8.fAccountList =
      [{ hash := "0xA", balance := "0.000000000000000007", transactionCount := 3 },
       { hash := "0xB", balance := "", transactionCount := -1 }] ∧
    countAccountsReady cAs8.events = 1 := by
  refine ⟨?_, rfl, rfl, rfl, rfl, rfl⟩
  intro refs i s hb
  obtain ⟨added, hrec, _⟩ := accountDetailsLoop_spec refs i s hb
  rw [hrec]

theorem account_list_never_cleared_witness :
    (accountDetailsLoop [.str "0xC"] 0 c10busy).1.fAccountList =
      [{ hash := "0xC", balance := "", transactionCount := -1 }] :=
  account_list_never_cleared.1 [.str "0xC"] 0 c10busy rfl

/-- `queueRequest` records the request in the enqueue trace in every path. -/
theorem queueRequest_enqueued (r : RequestIPC) (s : EtherState) :
    (queueRequest r s).1.enqueued = s.enqueued ++ [r] := by
  simp only [queueRequest, writeRequest, emit, getBusy]
  repeat' split
  all_goals rfl

/-- `queueOrBail` records the request in the enqueue trace in every path. -/
theorem queueOrBail_enqueued (r : RequestIPC) (s : EtherState) :
    (queueOrBail r s).enqueued = s.enqueued ++ [r] := by
  have h := queueRequest_enqueued r s
  unfold queueOrBail
  rcases hq : queueRequest r s with ⟨s', ok⟩
  rw [hq] at h
  cases ok
  · show (bail s').enqueued = s.enqueued ++ [r]
    rw [bail_eq]
    exact h
  · show s'.enqueued = s.enqueued ++ [r]
    exact h

/-- C7: `sendTransaction` with a non-positive value fails with "Invalid
transaction value" routed through `bail`, before any envelope is constructed
(the call-id counter, enqueue trace and write trace are untouched) and
without any transport write; with a positive value it passes to
`queueRequest` exactly one SendTransaction envelope whose value parameter is
the amount scaled by 10^18 and hex-encoded. -/
theorem sendTransaction_validation (fromAddr toAddr : String) (v : ℚ) (s : EtherState) :
    (v ≤ 0 →
      sendTransaction fromAddr toAddr v s =
        { s with fError := "Invalid transaction value",
                 fActiveRequest := .emptyReq, fRequestQueue := [],
                 events := s.events ++
                   [.error "Invalid transaction value" s.fCode,
                    .connectionStateChanged, .busyChanged false] }) ∧
    (0 < v →
      (sendTransaction fromAddr toAddr v s).enqueued = s.enqueued ++
        [{ fEmpty := false, otype := some .SendTransaction,
           method := "eth_sendTransaction",
           params := [.obj [("from", .str fromAddr), ("to", .str toAddr),
             ("value", .str (toStr0xHex (vinFromDouble (v * 1000000000000000000))))]],
           index := -1, callId := some s.nextCallId }]) := by
  constructor
  · intro hv
    unfold sendTransaction
    rw [if_pos hv, bail_eq]
  · intro hv
    have hv' : ¬(v ≤ 0) := not_le.mpr hv
    unfold sendTransaction
    rw [if_neg hv']
    exact queueOrBail_enqueued _ _

theorem sendTransaction_validation_witness :
    sendTransaction "0xa" "0xb" (-1) initState =
      { initState with fError := "Invalid transaction value",
                       events := [.error "Invalid transaction value" 0,
                                  .connectionStateChanged, .busyChanged false] } ∧
    (sendTransaction "0xa" "0xb" 1 initState).enqueued =
      [{ fEmpty := false, otype := some .SendTransaction,
         method := "eth_sendTransaction",
         params := [.obj [("from", .str "0xa"), ("to", .str "0xb"),
           ("value", .str "0xde0b6b3a7640000")]],
         index := -1, callId := some 0 }] := by
  constructor
  · have h := (sendTransaction_validation "0xa" "0xb" (-1) initState).1 (by norm_num)
    rw [h]
    exact rfl
  · have hv : vinFromDouble ((1 : ℚ) * 1000000000000000000) = 1000000000000000000 := by
      norm_num [vinFromDouble, Rat.floor_def']
    have h := (sendTransaction_validation "0xa" "0xb" 1 initState).2 (by norm_num)
    rw [h, hv]
    exact rfl

/-- C8 counterexample: the claim states that only in the Unconnected state
does `connectToServer` store the path and mark the busy flag; on an
already-connected client the code nonetheless stores the new path and emits
busyChanged(true) before failing. -/
theorem connectToServer_counterexample :
    (connectToServer "geth.new" c8state).fPath = "geth.new" ∧
    Event.busyChanged true ∈ (connectToServer "geth.new" c8state).events := by
  constructor
  · rfl
  · decide

/-- C8 (amended): `connectToServer` invoked while the socket is not
Unconnected fails immediately with "Already connected" and performs no
transport operation (no open recorded, socket state and connect timer
untouched) — but the path is stored and a transient busy flag is raised
unconditionally before the check (cleared again by the failure path); only
in the Unconnected state does it open the transport to the path and arm the
connect timer (2000 ms in the code, modelled by `timerArmed`). -/
theorem connectToServer_spec (p : String) (s : EtherState) :
    (s.socketState ≠ .Unconnected →
      connectToServer p s =
        { s with fPath := p, fError := "Already connected",
                 fActiveRequest := .emptyReq, fRequestQueue := [],
                 events := s.events ++
                   [.busyChanged true, .error "Already connected" s.fCode,
                    .connectionStateChanged, .busyChanged false] }) ∧
    (s.socketState = .Unconnected →
      connectToServer p s =
        { s with fPath := p, fActiveRequest := .placeholder,
                 socketState := .Connecting, timerArmed := true,
                 opens := s.opens ++ [p],
                 events := s.events ++ [.busyChanged true] }) := by
  constructor
  · intro h
    simp only [connectToServer, emit, getBusy]
    split
    · rw [bail_eq]
      simp [RequestIPC.placeholder]
    · next hcon => exact absurd h hcon
  · intro h
    simp only [connectToServer, emit, getBusy]
    split
    · next hcon => exact absurd h hcon
    · simp [RequestIPC.placeholder]

theorem connectToServer_spec_witness :
    connectToServer "geth.ipc" initState =
      { initState with fPath := "geth.ipc", fActiveRequest := .placeholder,
                       socketState := .Connecting, timerArmed := true,
                       opens := ["geth.ipc"], events := [.busyChanged true] } ∧
    connectToServer "geth.new" c8state =
      { c8state with fPath := "geth.new", fError := "Already connected",
                     fActiveRequest := .emptyReq, fRequestQueue := [],
                     events := [.busyChanged true, .error "Already connected" 0,
                                .connectionStateChanged, .busyChanged false] } := by
  constructor
  · have h := (connectToServer_spec "geth.ipc" initState).2 rfl
    rw [h]
    exact rfl
  · have h := (connectToServer_spec "geth.new" c8state).1 (by decide)
    rw [h]
    exact rfl

end Etherwall
